import Mathlib

/-!
Shallow embedding of the gravity, orientation, locomotion and event-handling
logic of src/src/main.rs (a bevy + rapier 2D planet-gravity game), with
theorems checking the specified behaviour of each per-tick stage.

Modelling conventions:
* f32 scalars are modelled as real numbers; nalgebra Vector2 values as the
  Vec2 structure below.  nalgebra operations keep their conventions: angle
  returns 0 when either argument has zero norm and otherwise clamps the
  cosine into [-1, 1] before acos (Real.arccos already clamps), and
  normalize divides by the norm (division by a zero norm is the Lean real
  junk value 0).
* Engine-side lookups are modelled as environment functions.  The lookup
  chain of get_planet_center (Attractable reference, atmosphere query,
  rigid-body set) is collapsed into one Entity -> Option Vec2 map giving the
  position of an atmosphere entity's body; a failing lookup anywhere in the
  chain is a none.  Event-queue handles resolve through a
  Handle -> Option Entity map (the BodyHandleToEntity resource).
* A stage's per-body effect is returned as data instead of a mutation: the
  list of apply_force or apply_impulse calls it makes, and the position it
  writes, if any.  A rapier Isometry2 is a translation paired with a
  rotation angle (the UnitComplex is represented by its angle).
* In physics_events, component stores that the loop only reads (Bullet,
  Planet membership) are fixed functions for the drain, matching bevy:
  despawns go through a deferred command buffer applied after the stage,
  while Player.is_grounded writes are direct and immediately visible.
-/

namespace Spaceism

noncomputable section

/-- A 2D vector with real coordinates, embedding nalgebra Vector2 of f32. -/
structure Vec2 where
  x : ℝ
  y : ℝ

namespace Vec2

instance : Zero Vec2 := ⟨⟨0, 0⟩⟩

instance : Add Vec2 := ⟨fun a b => ⟨a.x + b.x, a.y + b.y⟩⟩

instance : Sub Vec2 := ⟨fun a b => ⟨a.x - b.x, a.y - b.y⟩⟩

instance : Neg Vec2 := ⟨fun a => ⟨-a.x, -a.y⟩⟩

instance : SMul ℝ Vec2 := ⟨fun c a => ⟨c * a.x, c * a.y⟩⟩

/-- nalgebra dot product. -/
def dot (a b : Vec2) : ℝ := a.x * b.x + a.y * b.y

/-- nalgebra magnitude_squared. -/
def magSq (a : Vec2) : ℝ := a.x ^ 2 + a.y ^ 2

/-- nalgebra magnitude (the Euclidean norm). -/
def mag (a : Vec2) : ℝ := Real.sqrt a.magSq

/-- nalgebra normalize: the vector divided by its norm. -/
def normalize (a : Vec2) : Vec2 := ⟨a.x / a.mag, a.y / a.mag⟩

/-- nalgebra angle: the unsigned angle between two vectors, in [0, pi];
0 when either norm is zero, otherwise acos of the clamped cosine
(Real.arccos performs the clamping). -/
def angle (a b : Vec2) : ℝ :=
  if a.mag = 0 ∨ b.mag = 0 then 0 else Real.arccos (dot a b / (a.mag * b.mag))

/-- Rotation of a vector by an angle (used to state what advancing a polar
angle by that angle does to a position). -/
def rotate (t : ℝ) (a : Vec2) : Vec2 :=
  ⟨a.x * Real.cos t - a.y * Real.sin t, a.x * Real.sin t + a.y * Real.cos t⟩

end Vec2

/-- f32::atan2 self=y other=x, the angle of the point (x, y), in (-pi, pi]. -/
def atan2 (y x : ℝ) : ℝ := Complex.arg ⟨x, y⟩

/-- static PLANET_RADIUS: f32 = 200.0 -/
def PLANET_RADIUS : ℝ := 200

/-- static ATMOSPHERE_RADIUS: f32 = PLANET_RADIUS * 2.0 -/
def ATMOSPHERE_RADIUS : ℝ := PLANET_RADIUS * 2

/-- bevy entity ids. -/
abbrev Entity := ℕ

/-- rapier body/collider handles, as resolved through BodyHandleToEntity. -/
abbrev Handle := ℕ

/-- get_planet_center: resolve an Attractable reference (an optional entity)
through the atmosphere query and the rigid-body set to the position of the
referenced atmosphere's body.  The whole and_then chain is the bind of the
collapsed environment map; none at any step yields none. -/
def get_planet_center (atmospheres : Entity → Option Vec2)
    (attractable : Option Entity) : Option Vec2 :=
  attractable.bind atmospheres

/-- The body of the gravitate loop for one attractable body: the list of
forces passed to apply_force for that body this tick. -/
def gravitate (atmospheres : Entity → Option Vec2) (attractable : Option Entity)
    (bodyPos : Vec2) : List Vec2 :=
  match get_planet_center atmospheres attractable with
  | none => []
  | some planet_center =>
    let diff := planet_center - bodyPos
    let distance_squared := diff.magSq
    let max_pull_distance_squared := ATMOSPHERE_RADIUS ^ 2
    if distance_squared > max_pull_distance_squared then []
    else [(200000 : ℝ) • diff.normalize]

/-- The body of the graviturn loop for one player body: the isometry
(translation, rotation angle) the body holds after the stage.  The stage
writes from_parts(current translation, UnitComplex::new(target_angle)); a
body whose planet does not resolve is skipped and keeps its isometry. -/
def graviturn (atmospheres : Entity → Option Vec2) (attractable : Option Entity)
    (pos : Vec2) (rot : ℝ) : Vec2 × ℝ :=
  match get_planet_center atmospheres attractable with
  | none => (pos, rot)
  | some planet_center =>
    let translation_vector := pos
    let body_planet_distance := planet_center - translation_vector
    let center : Vec2 := ⟨0, 1⟩
    let target_angle :=
      Vec2.angle body_planet_distance center *
        (if center.x < translation_vector.x then 1 else -1)
    (translation_vector, target_angle)

/-- The movement keys read by move_player. -/
inductive KeyCode where
  | A
  | D
  | W
  | S
  | Space
deriving DecidableEq

/-- The key-to-unit-vector table of move_player. -/
def directions : List (KeyCode × Vec2) :=
  [(KeyCode.A, ⟨-1, 0⟩), (KeyCode.D, ⟨1, 0⟩), (KeyCode.W, ⟨0, 1⟩), (KeyCode.S, ⟨0, -1⟩)]

/-- The summed direction of all pressed movement keys (the fold in
move_player). -/
def keyDirection (pressed : KeyCode → Bool) : Vec2 :=
  directions.foldl (fun sum kv => if pressed kv.1 then sum + kv.2 else sum) 0

/-- What move_player does to one player body in one tick: the impulses it
applies and the isometry it writes through set_position, if any. -/
structure MoveResult where
  impulses : List Vec2
  setPosition : Option (Vec2 × ℝ)

/-- The body of the move_player loop for one player body.  Mirrors the
source: resolve the planet center (skip on failure), read diff, the summed
key direction, the clockwise tangential and the direction factor, then
branch on grounded + jump, on no direction, on airborne, and finally walk by
snapping the position onto the circle of radius PLANET_RADIUS + 23 at the
advanced angle, keeping the current rotation angle. -/
def move_player (atmospheres : Entity → Option Vec2) (attractable : Option Entity)
    (pressed : KeyCode → Bool) (delta_seconds : ℝ) (is_grounded : Bool)
    (pos : Vec2) (rot : ℝ) : MoveResult :=
  match get_planet_center atmospheres attractable with
  | none => ⟨[], none⟩
  | some planet_center =>
    let diff := planet_center - pos
    let direction := keyDirection pressed
    let has_direction := direction.magSq > 0
    let clockwise := (Vec2.mk diff.y (-diff.x)).normalize
    let is_clockwise := Vec2.angle direction clockwise < Real.pi / 2
    let direction_factor : ℝ := if is_clockwise then 1 else -1
    if is_grounded && pressed KeyCode.Space then
      ⟨[(-30000 : ℝ) •
          (diff + if has_direction then direction_factor • clockwise else 0).normalize],
        none⟩
    else if ¬has_direction then ⟨[], none⟩
    else if is_grounded = false then
      ⟨[(1000 : ℝ) • ((direction_factor * 2) • clockwise + diff.normalize)], none⟩
    else
      let planet_angle := atan2 diff.y diff.x
      let new_planet_angle :=
        Real.pi + planet_angle + delta_seconds * 1.2 * direction_factor
      ⟨[],
        some ((PLANET_RADIUS + 23) •
            Vec2.mk (Real.cos new_planet_angle) (Real.sin new_planet_angle), rot)⟩

/-- One tick's inputs for one player body (used to state what holding the
jump key across several ticks does). -/
structure TickInput where
  attractable : Option Entity
  pressed : KeyCode → Bool
  delta_seconds : ℝ
  is_grounded : Bool
  pos : Vec2
  rot : ℝ

/-- ncollide proximity statuses. -/
inductive Proximity where
  | Intersecting
  | WithinMargin
  | Disjoint
deriving DecidableEq

/-- A rapier proximity event: the two collider handles and the new status. -/
structure ProximityEvent where
  collider1 : Handle
  collider2 : Handle
  new_status : Proximity

/-- The participant entities of a proximity event, in collider order,
keeping those whose handle resolves (the filter_map over
body_handle_to_entity). -/
def proximityEntities (h2e : Handle → Option Entity) (ev : ProximityEvent) :
    List Entity :=
  [ev.collider1, ev.collider2].filterMap h2e

/-- Write one entity's Attractable component in the component store.
The store maps an entity to none when it has no Attractable component,
and to some r when it has one holding reference r. -/
def setAttractable (attr : Entity → Option (Option Entity)) (e : Entity)
    (v : Option Entity) : Entity → Option (Option Entity) :=
  fun e2 => if e2 = e then some v else attr e2

/-- Handling of one proximity event: find the first participant that the
atmosphere query matches; if there is one, for each participant with an
Attractable component, set the reference on Intersecting, do nothing on
WithinMargin, and on Disjoint clear the reference only when it currently
equals that atmosphere. -/
def stepProximity (h2e : Handle → Option Entity) (isAtmosphere : Entity → Bool)
    (attr : Entity → Option (Option Entity)) (ev : ProximityEvent) :
    Entity → Option (Option Entity) :=
  let entities := proximityEntities h2e ev
  match entities.find? isAtmosphere with
  | none => attr
  | some atmosphere_entity =>
    entities.foldl
      (fun attr entity =>
        match attr entity with
        | none => attr
        | some r =>
          match ev.new_status with
          | Proximity.Intersecting => setAttractable attr entity (some atmosphere_entity)
          | Proximity.WithinMargin => attr
          | Proximity.Disjoint =>
            if r = some atmosphere_entity then setAttractable attr entity none else attr)
      attr

/-- Draining the proximity queue: events are popped and handled in order. -/
def runProximity (h2e : Handle → Option Entity) (isAtmosphere : Entity → Bool)
    (attr : Entity → Option (Option Entity)) (evs : List ProximityEvent) :
    Entity → Option (Option Entity) :=
  evs.foldl (stepProximity h2e isAtmosphere) attr

/-- A rapier contact event: Started or Stopped, with two body handles. -/
inductive ContactEvent where
  | Started (h1 h2 : Handle)
  | Stopped (h1 h2 : Handle)

/-- The (handles, is_started) destructuring at the top of the contact loop. -/
def contactData : ContactEvent → List Handle × Bool
  | ContactEvent.Started h1 h2 => ([h1, h2], true)
  | ContactEvent.Stopped h1 h2 => ([h1, h2], false)

/-- The mutable state of the contact loop: the Player component store (an
entity maps to some flag when it is a live player, none otherwise), whose
is_grounded writes are immediate, and the deferred despawn command buffer
in the order the despawn calls were made. -/
structure ContactState where
  grounded : Entity → Option Bool
  toDespawn : List Entity

/-- Handling of one contact event: resolve both handles, push a despawn
command for every participant the bullet query matches, and if any
participant is matched by the planet query, set is_grounded to is_started on
every participating player.  The bullet and planet queries read component
stores that this loop never writes, so they are fixed functions. -/
def stepContact (h2e : Handle → Option Entity) (bullet planet : Entity → Bool)
    (s : ContactState) (ev : ContactEvent) : ContactState :=
  let d := contactData ev
  let entities := d.1.filterMap h2e
  let s1 : ContactState :=
    { s with toDespawn := s.toDespawn ++ entities.filter bullet }
  if entities.any planet then
    { s1 with
      grounded := fun e =>
        if e ∈ entities then (s1.grounded e).map (fun _ => d.2) else s1.grounded e }
  else s1

/-- Draining the contact queue: events are popped and handled in order. -/
def runContacts (h2e : Handle → Option Entity) (bullet planet : Entity → Bool)
    (s : ContactState) (evs : List ContactEvent) : ContactState :=
  evs.foldl (stepContact h2e bullet planet) s

/-- Applying the deferred despawn commands after the stage: each command
removes its entity; despawning an entity that is already gone changes
nothing. -/
def applyDespawns (alive : Entity → Bool) (cmds : List Entity) : Entity → Bool :=
  cmds.foldl (fun alive e => fun e2 => if e2 = e then false else alive e2) alive

namespace Vec2

@[simp] theorem zero_x : (0 : Vec2).x = 0 := rfl

@[simp] theorem zero_y : (0 : Vec2).y = 0 := rfl

@[simp] theorem add_x (a b : Vec2) : (a + b).x = a.x + b.x := rfl

@[simp] theorem add_y (a b : Vec2) : (a + b).y = a.y + b.y := rfl

@[simp] theorem sub_x (a b : Vec2) : (a - b).x = a.x - b.x := rfl

@[simp] theorem sub_y (a b : Vec2) : (a - b).y = a.y - b.y := rfl

@[simp] theorem smul_x (c : ℝ) (a : Vec2) : (c • a).x = c * a.x := rfl

@[simp] theorem smul_y (c : ℝ) (a : Vec2) : (c • a).y = c * a.y := rfl

theorem magSq_nonneg (a : Vec2) : 0 ≤ a.magSq :=
  add_nonneg (sq_nonneg _) (sq_nonneg _)

theorem mag_nonneg (a : Vec2) : 0 ≤ a.mag := Real.sqrt_nonneg _

theorem sq_mag (a : Vec2) : a.mag ^ 2 = a.magSq := Real.sq_sqrt (magSq_nonneg a)

@[ext] theorem ext_xy {a b : Vec2} (hx : a.x = b.x) (hy : a.y = b.y) : a = b := by
  cases a
  cases b
  simp_all

theorem magSq_eq_zero_iff (a : Vec2) : a.magSq = 0 ↔ a = 0 := by
  obtain ⟨x, y⟩ := a
  have h0 : (0 : Vec2) = ⟨0, 0⟩ := rfl
  simp only [magSq, h0, mk.injEq]
  constructor
  · intro h
    constructor <;> nlinarith [sq_nonneg x, sq_nonneg y]
  · rintro ⟨hx, hy⟩
    rw [hx, hy]
    ring

theorem mag_eq_zero_iff (a : Vec2) : a.mag = 0 ↔ a = 0 := by
  rw [mag, Real.sqrt_eq_zero (magSq_nonneg a), magSq_eq_zero_iff]

theorem mag_ne_zero (a : Vec2) (h : a ≠ 0) : a.mag ≠ 0 :=
  fun h0 => h ((mag_eq_zero_iff a).mp h0)

theorem mag_smul (c : ℝ) (a : Vec2) : (c • a).mag = |c| * a.mag := by
  have : (c • a).magSq = c ^ 2 * a.magSq := by
    simp [magSq]
    ring
  rw [mag, this, Real.sqrt_mul (sq_nonneg c), Real.sqrt_sq_eq_abs, mag]

theorem mag_normalize (a : Vec2) (h : a ≠ 0) : a.normalize.mag = 1 := by
  have hm : a.mag ≠ 0 := mag_ne_zero a h
  have : a.normalize.magSq = 1 := by
    have : a.normalize.magSq = a.magSq / a.mag ^ 2 := by
      simp [normalize, magSq]
      ring
    rw [this, sq_mag]
    exact div_self fun h0 => h ((magSq_eq_zero_iff a).mp h0)
  rw [mag, this, Real.sqrt_one]

theorem dot_smul_left (c : ℝ) (a b : Vec2) : dot (c • a) b = c * dot a b := by
  simp [dot]
  ring

theorem dot_add_left (a b c : Vec2) : dot (a + b) c = dot a c + dot b c := by
  simp [dot]
  ring

theorem dot_normalize (a b : Vec2) :
    dot a.normalize b.normalize = dot a b / (a.mag * b.mag) := by
  simp only [dot, normalize]
  rw [div_mul_div_comm, div_mul_div_comm, div_add_div_same]

theorem dot_self_eq_magSq (a : Vec2) : dot a a = a.magSq := by
  simp [dot, magSq]
  ring

theorem dot_normalize_self (a : Vec2) (h : a ≠ 0) :
    dot a.normalize a.normalize = 1 := by
  rw [dot_normalize, dot_self_eq_magSq, ← sq_mag]
  have hm : a.mag ≠ 0 := mag_ne_zero a h
  field_simp
  ring

@[simp] theorem add_zero_right (a : Vec2) : a + 0 = a := by
  ext <;> simp

@[simp] theorem zero_add_left (a : Vec2) : 0 + a = a := by
  ext <;> simp

@[simp] theorem magSq_zero : (0 : Vec2).magSq = 0 := by
  simp [magSq]

theorem sub_eq_zero_iff (a b : Vec2) : a - b = 0 ↔ a = b := by
  cases a
  cases b
  constructor <;> intro h
  · have hx := congrArg Vec2.x h
    have hy := congrArg Vec2.y h
    simp at hx hy
    simp [sub_eq_zero] at hx hy
    simp [hx, hy]
  · rw [h]
    ext <;> simp

end Vec2

/-- C7: the graviturn stage never changes a body's translation: for every
body it processes, the translation after the stage equals the translation
before it; only the rotation component of the isometry may change. -/
theorem graviturn_preserves_translation (atmospheres : Entity → Option Vec2)
    (attractable : Option Entity) (pos : Vec2) (rot : ℝ) :
    (graviturn atmospheres attractable pos rot).1 = pos := by
  unfold graviturn
  cases get_planet_center atmospheres attractable <;> rfl

/-- C1: for an attractable body, gravitate applies exactly one force, equal
to normalize(planet_center - body_position) * 200000, when the assigned
planet resolves and the squared distance to its center is at most
ATMOSPHERE_RADIUS ^ 2; that force points toward the planet center (a
positive multiple of the difference vector) with magnitude 200000
independent of distance whenever the body is not exactly at the center; a
body farther than that, or with no resolvable assigned planet, has no force
applied this tick. -/
theorem gravitate_force_characterization (atmospheres : Entity → Option Vec2)
    (attractable : Option Entity) (pos : Vec2) :
    (get_planet_center atmospheres attractable = none →
      gravitate atmospheres attractable pos = []) ∧
    (∀ c, get_planet_center atmospheres attractable = some c →
      (((c - pos).magSq ≤ ATMOSPHERE_RADIUS ^ 2 →
          gravitate atmospheres attractable pos =
            [(200000 : ℝ) • (c - pos).normalize] ∧
          (c - pos ≠ 0 →
            ((200000 : ℝ) • (c - pos).normalize).mag = 200000 ∧
            (200000 : ℝ) • (c - pos).normalize =
              (200000 / (c - pos).mag) • (c - pos))) ∧
        (ATMOSPHERE_RADIUS ^ 2 < (c - pos).magSq →
          gravitate atmospheres attractable pos = []))) := by
  refine ⟨fun h => ?_, fun c hc => ⟨fun hle => ⟨?_, fun hnz => ⟨?_, ?_⟩⟩, fun hgt => ?_⟩⟩
  · unfold gravitate
    rw [h]
  · unfold gravitate
    rw [hc]
    simp only
    rw [if_neg (not_lt.mpr hle)]
  · rw [Vec2.mag_smul]
    rw [Vec2.mag_normalize _ hnz]
    norm_num
  · have hm : (c - pos).mag ≠ 0 := Vec2.mag_ne_zero _ hnz
    simp only [Vec2.normalize]
    refine Vec2.ext_xy ?_ ?_ <;> simp <;> ring
  · unfold gravitate
    rw [hc]
    simp only
    rw [if_pos hgt]

/-- C2: proximity handling of a body's Attractable reference: applying
enter(atmosphereA), enter(atmosphereB), exit(atmosphereA) in order leaves
the reference equal to atmosphereB; in general an Intersecting event
overwrites the reference with the participating atmosphere (last-enter
wins), and a Disjoint event clears the reference exactly when it currently
equals the exiting atmosphere, so a stale exit is a no-op. -/
theorem proximity_last_enter_wins
    (h2e : Handle → Option Entity) (isAtmosphere : Entity → Bool)
    (attr : Entity → Option (Option Entity))
    (hA hB hE : Handle) (atmoA atmoB e : Entity) (r : Option Entity)
    (hhA : h2e hA = some atmoA) (hhB : h2e hB = some atmoB)
    (hhE : h2e hE = some e)
    (haA : isAtmosphere atmoA = true) (haB : isAtmosphere atmoB = true)
    (hAB : atmoA ≠ atmoB)
    (hattrA : attr atmoA = none) (hattrB : attr atmoB = none)
    (hattrE : attr e = some r) :
    runProximity h2e isAtmosphere attr
        [⟨hA, hE, Proximity.Intersecting⟩, ⟨hB, hE, Proximity.Intersecting⟩,
          ⟨hA, hE, Proximity.Disjoint⟩] e = some (some atmoB) ∧
    stepProximity h2e isAtmosphere attr ⟨hA, hE, Proximity.Intersecting⟩ e
      = some (some atmoA) ∧
    stepProximity h2e isAtmosphere attr ⟨hA, hE, Proximity.Disjoint⟩ e
      = some (if r = some atmoA then none else r) := by
  have heA : e ≠ atmoA := by
    intro h
    rw [h, hattrA] at hattrE
    cases hattrE
  have heB : e ≠ atmoB := by
    intro h
    rw [h, hattrB] at hattrE
    cases hattrE
  refine ⟨?_, ?_, ?_⟩
  · simp [runProximity, stepProximity, proximityEntities, setAttractable,
      hhA, hhB, hhE, haA, haB, hattrA, hattrB, hattrE, heA, heB, hAB,
      Ne.symm heA, Ne.symm heB, Ne.symm hAB]
  · simp [stepProximity, proximityEntities, setAttractable,
      hhA, hhE, haA, hattrA, hattrE, heA, Ne.symm heA]
  · by_cases hr : r = some atmoA <;>
      simp [stepProximity, proximityEntities, setAttractable,
        hhA, hhE, haA, hattrA, hattrE, heA, Ne.symm heA, hr]

/-- Concrete instance of the C2 theorem: handles resolve to themselves,
entities 0 and 1 are atmospheres, entity 2 is the attractable body with an
initially empty reference. -/
theorem proximity_last_enter_wins_witness :
    runProximity (fun h => some h) (fun n => decide (n < 2))
        (fun n => if n = 2 then some none else none)
        [⟨0, 2, Proximity.Intersecting⟩, ⟨1, 2, Proximity.Intersecting⟩,
          ⟨0, 2, Proximity.Disjoint⟩] 2 = some (some 1) ∧
    stepProximity (fun h => some h) (fun n => decide (n < 2))
        (fun n => if n = 2 then some none else none)
        ⟨0, 2, Proximity.Intersecting⟩ 2 = some (some 0) ∧
    stepProximity (fun h => some h) (fun n => decide (n < 2))
        (fun n => if n = 2 then some none else none)
        ⟨0, 2, Proximity.Disjoint⟩ 2
      = some (if (none : Option Entity) = some 0 then none else none) :=
  proximity_last_enter_wins (fun h => some h) (fun n => decide (n < 2))
    (fun n => if n = 2 then some none else none)
    0 1 2 0 1 2 none rfl rfl rfl (by decide) (by decide) (by decide)
    (by decide) (by decide) (by decide)

/-- C8: a contact event sets a participating player's grounded flag to true
on Started and to false on Stopped when some participant of that same event
is a planet; an event with no planet participant leaves every player's
grounded flag unchanged. -/
theorem contact_grounded_iff_planet_participant
    (h2e : Handle → Option Entity) (bullet planet : Entity → Bool)
    (s : ContactState) (h1 h2 : Handle) (e1 e2 p : Entity) (g : Bool)
    (he1 : h2e h1 = some e1) (he2 : h2e h2 = some e2)
    (hp : s.grounded p = some g) :
    ((planet e1 = true ∨ planet e2 = true) → (p = e1 ∨ p = e2) →
      (stepContact h2e bullet planet s (ContactEvent.Started h1 h2)).grounded p
          = some true ∧
      (stepContact h2e bullet planet s (ContactEvent.Stopped h1 h2)).grounded p
          = some false) ∧
    (planet e1 = false → planet e2 = false →
      (stepContact h2e bullet planet s (ContactEvent.Started h1 h2)).grounded p
          = some g ∧
      (stepContact h2e bullet planet s (ContactEvent.Stopped h1 h2)).grounded p
          = some g) := by
  constructor
  · intro hplanet hpe
    have hany : [e1, e2].any planet = true := by
      rcases hplanet with h | h <;> simp [h]
    rcases hpe with h | h <;> subst h <;>
      constructor <;>
        simp [stepContact, contactData, he1, he2, hany, hp]
  · intro hp1 hp2
    constructor <;>
      simp [stepContact, contactData, he1, he2, hp1, hp2, hp]

/-- Concrete instance of the C8 theorem: entity 0 is a planet, entity 1 a
player that starts not grounded, handles resolve to themselves. -/
theorem contact_grounded_iff_planet_participant_witness :
    ((decide ((0 : Entity) = 0) = true ∨ decide ((1 : Entity) = 0) = true) →
      ((1 : Entity) = 0 ∨ (1 : Entity) = 1) →
      (stepContact (fun h => some h) (fun _ => false) (fun n => decide (n = 0))
          ⟨fun n => if n = 1 then some false else none, []⟩
          (ContactEvent.Started 0 1)).grounded 1 = some true ∧
      (stepContact (fun h => some h) (fun _ => false) (fun n => decide (n = 0))
          ⟨fun n => if n = 1 then some false else none, []⟩
          (ContactEvent.Stopped 0 1)).grounded 1 = some false) ∧
    (decide ((0 : Entity) = 0) = false → decide ((1 : Entity) = 0) = false →
      (stepContact (fun h => some h) (fun _ => false) (fun n => decide (n = 0))
          ⟨fun n => if n = 1 then some false else none, []⟩
          (ContactEvent.Started 0 1)).grounded 1 = some false ∧
      (stepContact (fun h => some h) (fun _ => false) (fun n => decide (n = 0))
          ⟨fun n => if n = 1 then some false else none, []⟩
          (ContactEvent.Stopped 0 1)).grounded 1 = some false) :=
  contact_grounded_iff_planet_participant (fun h => some h) (fun _ => false)
    (fun n => decide (n = 0)) ⟨fun n => if n = 1 then some false else none, []⟩
    0 1 0 1 1 false rfl rfl (by decide)

/-- The despawn buffer a contact event leaves behind does not depend on the
grounded bookkeeping: it is the previous buffer extended by the bullet
participants. -/
theorem stepContact_toDespawn (h2e : Handle → Option Entity)
    (bullet planet : Entity → Bool) (s : ContactState) (ev : ContactEvent) :
    (stepContact h2e bullet planet s ev).toDespawn
      = s.toDespawn ++ ((contactData ev).1.filterMap h2e).filter bullet := by
  simp only [stepContact]
  split <;> rfl

/-- Applying the deferred despawn buffer kills exactly the listed entities:
a despawn of an entity that is already gone changes nothing. -/
theorem applyDespawns_eq (alive : Entity → Bool) (cmds : List Entity) (e : Entity) :
    applyDespawns alive cmds e = if e ∈ cmds then false else alive e := by
  induction cmds generalizing alive with
  | nil => simp [applyDespawns]
  | cons a l ih =>
    simp only [applyDespawns, List.foldl] at *
    rw [ih]
    by_cases h : e = a <;> by_cases hl : e ∈ l <;> simp [h, hl]

/-- C9: a contact event (Started or Stopped) with a bullet participant
pushes a despawn command for that bullet; applying the command buffer
destroys it exactly once, in that a repeated despawn command for an entity
that is already destroyed changes nothing; and a later event whose resolved
participants are no longer bullets and touch no planet leaves the contact
state entirely unchanged. -/
theorem bullet_despawned_exactly_once
    (h2e : Handle → Option Entity) (bullet planet : Entity → Bool)
    (s : ContactState) (h1 h2 : Handle) (b c : Entity)
    (hb1 : h2e h1 = some b) (hb2 : h2e h2 = some c)
    (hbul : bullet b = true) :
    (b ∈ (stepContact h2e bullet planet s (ContactEvent.Started h1 h2)).toDespawn ∧
      b ∈ (stepContact h2e bullet planet s (ContactEvent.Stopped h1 h2)).toDespawn) ∧
    (∀ alive cmds, b ∈ cmds → applyDespawns alive cmds b = false) ∧
    (∀ alive cmds, applyDespawns alive cmds b = false →
      applyDespawns alive (cmds ++ [b]) = applyDespawns alive cmds) ∧
    (∀ (bullet2 planet2 : Entity → Bool) (s2 : ContactState),
      bullet2 b = false → bullet2 c = false →
      planet2 b = false → planet2 c = false →
      stepContact h2e bullet2 planet2 s2 (ContactEvent.Started h1 h2) = s2 ∧
      stepContact h2e bullet2 planet2 s2 (ContactEvent.Stopped h1 h2) = s2) := by
  refine ⟨⟨?_, ?_⟩, fun alive cmds hmem => ?_, fun alive cmds hdead => ?_,
    fun bullet2 planet2 s2 hB hC hPB hPC => ⟨?_, ?_⟩⟩
  · rw [stepContact_toDespawn]
    simp [contactData, hb1, hb2, List.filter, hbul]
  · rw [stepContact_toDespawn]
    simp [contactData, hb1, hb2, List.filter, hbul]
  · rw [applyDespawns_eq]
    simp [hmem]
  · funext e2
    rw [applyDespawns_eq, applyDespawns_eq]
    rw [applyDespawns_eq] at hdead
    by_cases h : e2 ∈ cmds
    · simp [h]
    · by_cases h2 : e2 = b
      · subst h2
        simp [h] at hdead
        simp [h, hdead]
      · simp [h, h2]
  · obtain ⟨gr, td⟩ := s2
    simp [stepContact, contactData, hb1, hb2, List.filter, hB, hC, hPB, hPC]
  · obtain ⟨gr, td⟩ := s2
    simp [stepContact, contactData, hb1, hb2, List.filter, hB, hC, hPB, hPC]

/-- Concrete instance of the C9 theorem: entity 5 is a bullet, entity 6 is
not; handles resolve to themselves and no player exists. -/
theorem bullet_despawned_exactly_once_witness :
    ((5 : Entity) ∈ (stepContact (fun h => some h) (fun n => decide (n = 5))
        (fun _ => false) ⟨fun _ => none, []⟩
        (ContactEvent.Started 5 6)).toDespawn ∧
      (5 : Entity) ∈ (stepContact (fun h => some h) (fun n => decide (n = 5))
        (fun _ => false) ⟨fun _ => none, []⟩
        (ContactEvent.Stopped 5 6)).toDespawn) ∧
    (∀ alive cmds, (5 : Entity) ∈ cmds → applyDespawns alive cmds 5 = false) ∧
    (∀ alive cmds, applyDespawns alive cmds 5 = false →
      applyDespawns alive (cmds ++ [5]) = applyDespawns alive cmds) ∧
    (∀ (bullet2 planet2 : Entity → Bool) (s2 : ContactState),
      bullet2 5 = false → bullet2 6 = false →
      planet2 5 = false → planet2 6 = false →
      stepContact (fun h => some h) bullet2 planet2 s2
          (ContactEvent.Started 5 6) = s2 ∧
      stepContact (fun h => some h) bullet2 planet2 s2
          (ContactEvent.Stopped 5 6) = s2) :=
  bullet_despawned_exactly_once (fun h => some h) (fun n => decide (n = 5))
    (fun _ => false) ⟨fun _ => none, []⟩ 5 6 5 6 rfl rfl (by decide)

/-- C6: a grounded player with a resolvable attracting planet pressing the
jump trigger with no movement key held gets exactly the impulse
-30000 * normalize(planet_center - position) — a pure radial launch away
from the planet with no tangential bias — and no position write that
tick. -/
theorem jump_impulse_pure_radial (atmospheres : Entity → Option Vec2)
    (attractable : Option Entity) (pressed : KeyCode → Bool)
    (delta_seconds : ℝ) (pos : Vec2) (rot : ℝ) (c : Vec2)
    (hres : get_planet_center atmospheres attractable = some c)
    (hspace : pressed KeyCode.Space = true)
    (hA : pressed KeyCode.A = false) (hD : pressed KeyCode.D = false)
    (hW : pressed KeyCode.W = false) (hS : pressed KeyCode.S = false) :
    move_player atmospheres attractable pressed delta_seconds true pos rot
      = ⟨[(-30000 : ℝ) • (c - pos).normalize], none⟩ := by
  have hdir0 : keyDirection pressed = 0 := by
    simp [keyDirection, directions, hA, hD, hW, hS]
  unfold move_player
  rw [hres]
  simp [hdir0, hspace]

/-- Concrete instance of the C6 theorem: planet at the origin, grounded
player at (0, 223) holding only the jump key. -/
theorem jump_impulse_pure_radial_witness :
    move_player (fun _ => some ⟨0, 0⟩) (some 0)
        (fun k => match k with | KeyCode.Space => true | _ => false)
        (1 / 60) true ⟨0, 223⟩ 0
      = ⟨[(-30000 : ℝ) • ((⟨0, 0⟩ : Vec2) - ⟨0, 223⟩).normalize], none⟩ :=
  jump_impulse_pure_radial (fun _ => some ⟨0, 0⟩) (some 0)
    (fun k => match k with | KeyCode.Space => true | _ => false)
    (1 / 60) ⟨0, 223⟩ 0 ⟨0, 0⟩ rfl rfl rfl rfl rfl rfl

/-- C10: the jump trigger is level-triggered, not edge-triggered:
move_player branches on the held state of the Space key with no memory of
the previous tick, so every tick whose input has the player grounded, the
planet resolvable and Space held applies exactly one (jump) impulse, and a
run of n such ticks applies n impulses in total. -/
theorem jump_level_triggered (atmospheres : Entity → Option Vec2)
    (ticks : List TickInput)
    (h : ∀ t ∈ ticks, t.is_grounded = true ∧ t.pressed KeyCode.Space = true ∧
        (get_planet_center atmospheres t.attractable).isSome = true) :
    (ticks.map fun t =>
        (move_player atmospheres t.attractable t.pressed t.delta_seconds
            t.is_grounded t.pos t.rot).impulses.length).sum
      = ticks.length := by
  induction ticks with
  | nil => simp
  | cons t l ih =>
    obtain ⟨hg, hs, hres⟩ := h t (by simp)
    obtain ⟨c, hc⟩ := Option.isSome_iff_exists.mp hres
    have hlen : (move_player atmospheres t.attractable t.pressed t.delta_seconds
        t.is_grounded t.pos t.rot).impulses.length = 1 := by
      unfold move_player
      rw [hc]
      simp [hg, hs]
    simp only [List.map_cons, List.sum_cons, List.length_cons, hlen]
    rw [ih fun x hx => h x (List.mem_cons_of_mem t hx)]
    omega

/-- Concrete instance of the C10 theorem: two consecutive grounded ticks
with every key held apply two jump impulses. -/
theorem jump_level_triggered_witness :
    (([⟨some 0, fun _ => true, 1 / 60, true, ⟨0, 223⟩, 0⟩,
        ⟨some 0, fun _ => true, 1 / 60, true, ⟨0, 223⟩, 0⟩] :
          List TickInput).map fun t =>
        (move_player (fun _ => some ⟨0, 0⟩) t.attractable t.pressed
            t.delta_seconds t.is_grounded t.pos t.rot).impulses.length).sum
      = 2 :=
  jump_level_triggered (fun _ => some ⟨0, 0⟩) _ (by
    intro t ht
    simp only [List.mem_cons, List.not_mem_nil, or_false] at ht
    rcases ht with h | h <;> subst h <;> exact ⟨rfl, rfl, rfl⟩)

/-- The airborne branch of move_player in closed form: with a resolvable
planet, a nonzero key direction and is_grounded false, the stage applies
one impulse 1000 * (clockwise * direction_factor * 2 + normalize(diff)) and
writes no position. -/
theorem move_player_airborne (atmospheres : Entity → Option Vec2)
    (attractable : Option Entity) (pressed : KeyCode → Bool)
    (delta_seconds : ℝ) (pos : Vec2) (rot : ℝ) (c : Vec2)
    (hres : get_planet_center atmospheres attractable = some c)
    (hdir : 0 < (keyDirection pressed).magSq) :
    move_player atmospheres attractable pressed delta_seconds false pos rot
      = ⟨[(1000 : ℝ) •
            (((if Vec2.angle (keyDirection pressed)
                    ((Vec2.mk (c - pos).y (-(c - pos).x)).normalize) < Real.pi / 2
                then (1 : ℝ) else -1) * 2) •
                (Vec2.mk (c - pos).y (-(c - pos).x)).normalize
              + (c - pos).normalize)], none⟩ := by
  unfold move_player
  rw [hres]
  simp [hdir]

/-- The perpendicular used for the clockwise tangential is orthogonal to
the radial difference vector, so the two normalized directions have dot
product zero. -/
theorem clockwise_orthogonal (d : Vec2) :
    Vec2.dot ((Vec2.mk d.y (-d.x)).normalize) d.normalize = 0 := by
  rw [Vec2.dot_normalize]
  have : Vec2.dot (Vec2.mk d.y (-d.x)) d = 0 := by
    simp [Vec2.dot]
    ring
  rw [this, zero_div]

/-- C4 (amended): a non-grounded player with a resolvable attracting planet
and a nonzero summed movement-key direction gets exactly the impulse
1000 * (clockwise * direction_factor * 2 + normalize(diff)) and no position
write; the impulse combines a tangential component scaled by
direction_factor with a radial component pointing toward — not away from —
the planet center: its component along the unit vector toward the center is
+1000. -/
theorem airborne_impulse_tangential_plus_inward (atmospheres : Entity → Option Vec2)
    (attractable : Option Entity) (pressed : KeyCode → Bool)
    (delta_seconds : ℝ) (pos : Vec2) (rot : ℝ) (c : Vec2)
    (hres : get_planet_center atmospheres attractable = some c)
    (hdir : 0 < (keyDirection pressed).magSq) :
    move_player atmospheres attractable pressed delta_seconds false pos rot
      = ⟨[(1000 : ℝ) •
            (((if Vec2.angle (keyDirection pressed)
                    ((Vec2.mk (c - pos).y (-(c - pos).x)).normalize) < Real.pi / 2
                then (1 : ℝ) else -1) * 2) •
                (Vec2.mk (c - pos).y (-(c - pos).x)).normalize
              + (c - pos).normalize)], none⟩ ∧
    (pos ≠ c →
      ∀ i ∈ (move_player atmospheres attractable pressed delta_seconds false
          pos rot).impulses,
        Vec2.dot i ((c - pos).normalize) = 1000) := by
  have h1 := move_player_airborne atmospheres attractable pressed delta_seconds
    pos rot c hres hdir
  refine ⟨h1, fun hne i hi => ?_⟩
  rw [h1] at hi
  simp only [List.mem_singleton] at hi
  subst hi
  have hd : c - pos ≠ 0 := fun h =>
    hne (((Vec2.sub_eq_zero_iff c pos).mp h).symm)
  rw [Vec2.dot_smul_left, Vec2.dot_add_left, Vec2.dot_smul_left,
    clockwise_orthogonal, Vec2.dot_normalize_self _ hd]
  ring

/-- C4 counterexample: planet at the origin, airborne player at (0, 300)
holding only the D key.  The single applied impulse is (2000, -1000); its
component along the unit vector toward the planet center is +1000, so the
radial part of the impulse pushes toward the planet center, not away from
it as the claim states. -/
theorem airborne_impulse_counterexample :
    (move_player (fun _ => some ⟨0, 0⟩) (some 0)
        (fun k => match k with | KeyCode.D => true | _ => false)
        (1 / 60) false ⟨0, 300⟩ 0).impulses = [⟨2000, -1000⟩] ∧
    Vec2.dot ⟨2000, -1000⟩ (((⟨0, 0⟩ : Vec2) - ⟨0, 300⟩).normalize) = 1000 ∧
    ¬Vec2.dot ⟨2000, -1000⟩ (((⟨0, 0⟩ : Vec2) - ⟨0, 300⟩).normalize) < 0 := by
  have hsqrt : Real.sqrt 90000 = 300 := by
    rw [show (90000 : ℝ) = 300 ^ 2 by norm_num]
    exact Real.sqrt_sq (by norm_num)
  have hkd : keyDirection (fun k => match k with | KeyCode.D => true | _ => false)
      = ⟨1, 0⟩ := by
    simp [keyDirection, directions]
  have hdir : (0 : ℝ) < (keyDirection
      (fun k => match k with | KeyCode.D => true | _ => false)).magSq := by
    rw [hkd]
    norm_num [Vec2.magSq]
  have h1 := move_player_airborne (fun _ => some ⟨0, 0⟩) (some 0)
    (fun k => match k with | KeyCode.D => true | _ => false)
    (1 / 60) ⟨0, 300⟩ 0 ⟨0, 0⟩ rfl hdir
  have hmagdiff : (((⟨0, 0⟩ : Vec2) - ⟨0, 300⟩)).mag = 300 := by
    rw [Vec2.mag]
    rw [show (((⟨0, 0⟩ : Vec2) - ⟨0, 300⟩)).magSq = 90000 by
      simp [Vec2.magSq]; norm_num]
    exact hsqrt
  have hnormdiff : (((⟨0, 0⟩ : Vec2) - ⟨0, 300⟩)).normalize = ⟨0, -1⟩ := by
    rw [Vec2.normalize, hmagdiff]
    refine Vec2.ext_xy ?_ ?_ <;> simp
  have hmagcw : (Vec2.mk (((⟨0, 0⟩ : Vec2) - ⟨0, 300⟩)).y
      (-(((⟨0, 0⟩ : Vec2) - ⟨0, 300⟩)).x)).mag = 300 := by
    rw [Vec2.mag]
    rw [show (Vec2.mk (((⟨0, 0⟩ : Vec2) - ⟨0, 300⟩)).y
        (-(((⟨0, 0⟩ : Vec2) - ⟨0, 300⟩)).x)).magSq = 90000 by
      simp [Vec2.magSq]; norm_num]
    exact hsqrt
  have hcw : (Vec2.mk (((⟨0, 0⟩ : Vec2) - ⟨0, 300⟩)).y
      (-(((⟨0, 0⟩ : Vec2) - ⟨0, 300⟩)).x)).normalize = ⟨-1, 0⟩ := by
    rw [Vec2.normalize, hmagcw]
    refine Vec2.ext_xy ?_ ?_ <;> simp
  have hm1 : (Vec2.mk (1 : ℝ) 0).mag = 1 := by
    rw [Vec2.mag, show (Vec2.mk (1 : ℝ) 0).magSq = 1 by simp [Vec2.magSq]]
    exact Real.sqrt_one
  have hm2 : (Vec2.mk (-1 : ℝ) 0).mag = 1 := by
    rw [Vec2.mag, show (Vec2.mk (-1 : ℝ) 0).magSq = 1 by simp [Vec2.magSq]]
    exact Real.sqrt_one
  have hangle : Vec2.angle ⟨1, 0⟩ ⟨-1, 0⟩ = Real.pi := by
    rw [Vec2.angle, hm1, hm2]
    norm_num [Vec2.dot]
  have hnotlt : ¬(Real.pi < Real.pi / 2) := by
    have := Real.pi_pos
    intro h
    linarith
  rw [hkd, hcw, hnormdiff, hangle] at h1
  rw [if_neg hnotlt] at h1
  have hdot : Vec2.dot ⟨2000, -1000⟩ (((⟨0, 0⟩ : Vec2) - ⟨0, 300⟩).normalize)
      = 1000 := by
    rw [hnormdiff]
    norm_num [Vec2.dot]
  refine ⟨?_, hdot, ?_⟩
  · rw [h1]
    simp only [List.cons.injEq, and_true]
    refine Vec2.ext_xy ?_ ?_ <;> simp <;> norm_num
  · rw [hdot]
    norm_num

/-- Concrete instance of the C4 (amended) theorem, at the same input as the
counterexample: planet at the origin, airborne player at (0, 300) holding
only the D key. -/
theorem airborne_impulse_tangential_plus_inward_witness :
    move_player (fun _ => some ⟨0, 0⟩) (some 0)
        (fun k => match k with | KeyCode.D => true | _ => false)
        (1 / 60) false ⟨0, 300⟩ 0
      = ⟨[(1000 : ℝ) •
            (((if Vec2.angle (keyDirection
                      (fun k => match k with | KeyCode.D => true | _ => false))
                    ((Vec2.mk (((⟨0, 0⟩ : Vec2) - ⟨0, 300⟩)).y
                        (-(((⟨0, 0⟩ : Vec2) - ⟨0, 300⟩)).x)).normalize)
                    < Real.pi / 2
                then (1 : ℝ) else -1) * 2) •
                (Vec2.mk (((⟨0, 0⟩ : Vec2) - ⟨0, 300⟩)).y
                  (-(((⟨0, 0⟩ : Vec2) - ⟨0, 300⟩)).x)).normalize
              + (((⟨0, 0⟩ : Vec2) - ⟨0, 300⟩)).normalize)], none⟩ ∧
    ((⟨0, 300⟩ : Vec2) ≠ ⟨0, 0⟩ →
      ∀ i ∈ (move_player (fun _ => some ⟨0, 0⟩) (some 0)
          (fun k => match k with | KeyCode.D => true | _ => false)
          (1 / 60) false ⟨0, 300⟩ 0).impulses,
        Vec2.dot i ((((⟨0, 0⟩ : Vec2) - ⟨0, 300⟩)).normalize) = 1000) :=
  airborne_impulse_tangential_plus_inward (fun _ => some ⟨0, 0⟩) (some 0)
    (fun k => match k with | KeyCode.D => true | _ => false)
    (1 / 60) ⟨0, 300⟩ 0 ⟨0, 0⟩ rfl
    (by norm_num [keyDirection, directions, Vec2.magSq])

/-- C5 (amended): in the graviturn stage the new rotation angle is the
unsigned angle between diff = planet_center - body_position and the
reference vector (0, 1), with its sign flipped exactly when the reference
x-coordinate (0) is NOT less than the body's x-translation: the code keeps
the positive angle when 0 < x and negates it when x ≤ 0. -/
theorem graviturn_angle_sign (atmospheres : Entity → Option Vec2)
    (attractable : Option Entity) (pos : Vec2) (rot : ℝ) (c : Vec2)
    (hres : get_planet_center atmospheres attractable = some c) :
    ((0 : ℝ) < pos.x →
      (graviturn atmospheres attractable pos rot).2
        = Vec2.angle (c - pos) ⟨0, 1⟩) ∧
    (¬(0 : ℝ) < pos.x →
      (graviturn atmospheres attractable pos rot).2
        = -Vec2.angle (c - pos) ⟨0, 1⟩) := by
  constructor <;> intro h <;>
    (unfold graviturn; rw [hres]; simp only) <;> simp [h]

/-- C5 counterexample: planet at the origin, body at (5, 0) with the
reference x-coordinate 0 less than the body's x-translation 5.  The claim
says the sign is flipped there, predicting -pi/2, but graviturn keeps the
positive angle pi/2. -/
theorem graviturn_angle_sign_counterexample :
    (graviturn (fun _ => some ⟨0, 0⟩) (some 0) ⟨5, 0⟩ 0).2 = Real.pi / 2 ∧
    Real.pi / 2 ≠ -(Real.pi / 2) := by
  have hm1 : (((⟨0, 0⟩ : Vec2) - ⟨5, 0⟩)).mag = 5 := by
    rw [Vec2.mag, show (((⟨0, 0⟩ : Vec2) - ⟨5, 0⟩)).magSq = 5 ^ 2 by
      simp [Vec2.magSq]]
    exact Real.sqrt_sq (by norm_num)
  have hm2 : (Vec2.mk (0 : ℝ) 1).mag = 1 := by
    rw [Vec2.mag, show (Vec2.mk (0 : ℝ) 1).magSq = 1 by simp [Vec2.magSq]]
    exact Real.sqrt_one
  have hangle : Vec2.angle ((⟨0, 0⟩ : Vec2) - ⟨5, 0⟩) ⟨0, 1⟩ = Real.pi / 2 := by
    rw [Vec2.angle, hm1, hm2]
    norm_num [Vec2.dot]
  constructor
  · unfold graviturn
    simp only [get_planet_center, Option.bind]
    rw [if_pos (by norm_num : ((⟨0, 1⟩ : Vec2)).x < ((⟨5, 0⟩ : Vec2)).x)]
    rw [hangle]
    ring
  · have := Real.pi_pos
    intro h
    nlinarith

/-- Concrete instance of the C5 (amended) theorem: planet at the origin,
body at (5, 0). -/
theorem graviturn_angle_sign_witness :
    (((0 : ℝ) < ((⟨5, 0⟩ : Vec2)).x →
      (graviturn (fun _ => some ⟨0, 0⟩) (some 0) ⟨5, 0⟩ 0).2
        = Vec2.angle ((⟨0, 0⟩ : Vec2) - ⟨5, 0⟩) ⟨0, 1⟩) ∧
    (¬(0 : ℝ) < ((⟨5, 0⟩ : Vec2)).x →
      (graviturn (fun _ => some ⟨0, 0⟩) (some 0) ⟨5, 0⟩ 0).2
        = -Vec2.angle ((⟨0, 0⟩ : Vec2) - ⟨5, 0⟩) ⟨0, 1⟩)) :=
  graviturn_angle_sign (fun _ => some ⟨0, 0⟩) (some 0) ⟨5, 0⟩ 0 ⟨0, 0⟩ rfl

/-- The walking branch of move_player in closed form: with a resolvable
planet, the jump key not held, a nonzero key direction and is_grounded
true, the stage applies no impulse and writes the position
(PLANET_RADIUS + 23) * (cos new_angle, sin new_angle) with the rotation
kept. -/
theorem move_player_walk (atmospheres : Entity → Option Vec2)
    (attractable : Option Entity) (pressed : KeyCode → Bool)
    (delta_seconds : ℝ) (pos : Vec2) (rot : ℝ) (c : Vec2)
    (hres : get_planet_center atmospheres attractable = some c)
    (hspace : pressed KeyCode.Space = false)
    (hdir : 0 < (keyDirection pressed).magSq) :
    move_player atmospheres attractable pressed delta_seconds true pos rot
      = ⟨[], some ((PLANET_RADIUS + 23) •
          Vec2.mk
            (Real.cos (Real.pi + atan2 (c - pos).y (c - pos).x +
              delta_seconds * 1.2 *
                (if Vec2.angle (keyDirection pressed)
                      ((Vec2.mk (c - pos).y (-(c - pos).x)).normalize)
                    < Real.pi / 2
                  then (1 : ℝ) else -1)))
            (Real.sin (Real.pi + atan2 (c - pos).y (c - pos).x +
              delta_seconds * 1.2 *
                (if Vec2.angle (keyDirection pressed)
                      ((Vec2.mk (c - pos).y (-(c - pos).x)).normalize)
                    < Real.pi / 2
                  then (1 : ℝ) else -1))), rot)⟩ := by
  unfold move_player
  rw [hres]
  simp [hspace, hdir]

theorem mag_pos (a : Vec2) (h : a ≠ 0) : 0 < a.mag :=
  lt_of_le_of_ne (Vec2.mag_nonneg a) (Ne.symm (Vec2.mag_ne_zero a h))

/-- Rotating a vector preserves its squared magnitude. -/
theorem magSq_rotate (t : ℝ) (a : Vec2) : (Vec2.rotate t a).magSq = a.magSq := by
  simp only [Vec2.rotate, Vec2.magSq]
  linear_combination (a.x ^ 2 + a.y ^ 2) * Real.sin_sq_add_cos_sq t

/-- Rotating a vector preserves its magnitude. -/
theorem mag_rotate (t : ℝ) (a : Vec2) : (Vec2.rotate t a).mag = a.mag := by
  rw [Vec2.mag, magSq_rotate, Vec2.mag]

/-- A scaled point of the unit circle has squared magnitude the square of
the scale. -/
theorem snap_magSq (k t : ℝ) :
    (k • Vec2.mk (Real.cos t) (Real.sin t)).magSq = k ^ 2 := by
  simp only [Vec2.magSq, Vec2.smul_x, Vec2.smul_y]
  linear_combination k ^ 2 * Real.sin_sq_add_cos_sq t

/-- Every point the walking snap can produce lies on the origin circle of
radius PLANET_RADIUS + 23 = 223, and its squared distance to the planet
center (750, 500) is at least 527 ^ 2 = 277729, hence neither 183 ^ 2 nor
223 ^ 2. -/
theorem snap_props (t : ℝ) :
    ((PLANET_RADIUS + 23) • Vec2.mk (Real.cos t) (Real.sin t)).magSq
        = (PLANET_RADIUS + 23) ^ 2 ∧
    (((PLANET_RADIUS + 23) • Vec2.mk (Real.cos t) (Real.sin t) : Vec2)
        - ⟨750, 500⟩).magSq ≠ (183 : ℝ) ^ 2 ∧
    (((PLANET_RADIUS + 23) • Vec2.mk (Real.cos t) (Real.sin t) : Vec2)
        - ⟨750, 500⟩).magSq ≠ (PLANET_RADIUS + 23) ^ 2 := by
  have hfar : (277729 : ℝ) ≤
      (((PLANET_RADIUS + 23) • Vec2.mk (Real.cos t) (Real.sin t) : Vec2)
        - ⟨750, 500⟩).magSq := by
    simp only [Vec2.magSq, Vec2.sub_x, Vec2.sub_y, Vec2.smul_x, Vec2.smul_y,
      PLANET_RADIUS]
    nlinarith [sq_nonneg ((200 + 23) * Real.sin t - 500),
      sq_nonneg (1 - Real.cos t), Real.cos_le_one t]
  refine ⟨snap_magSq _ t, fun heq => ?_, fun heq => ?_⟩
  · rw [heq] at hfar
    norm_num at hfar
  · rw [heq] at hfar
    norm_num [PLANET_RADIUS] at hfar

/-- C3 (amended): a grounded player with a resolvable attracting planet, a
nonzero summed movement-key direction and jump not pressed is snapped onto
the circle of radius PLANET_RADIUS + 23 = 223 centered at the ORIGIN (the
first planet's center; the snap ignores which planet attracts the body), at
the polar angle of the body's offset from the planet advanced by
1.2 * elapsed_tick_seconds * direction_factor, with no impulse and the
rotation unchanged. -/
theorem walk_snaps_to_origin_circle (atmospheres : Entity → Option Vec2)
    (attractable : Option Entity) (pressed : KeyCode → Bool)
    (delta_seconds : ℝ) (pos : Vec2) (rot : ℝ) (c : Vec2)
    (hres : get_planet_center atmospheres attractable = some c)
    (hspace : pressed KeyCode.Space = false)
    (hdir : 0 < (keyDirection pressed).magSq)
    (hne : pos ≠ c) :
    move_player atmospheres attractable pressed delta_seconds true pos rot
      = ⟨[], some (((PLANET_RADIUS + 23) / (pos - c).mag) •
          Vec2.rotate
            (delta_seconds * 1.2 *
              (if Vec2.angle (keyDirection pressed)
                    ((Vec2.mk (c - pos).y (-(c - pos).x)).normalize)
                  < Real.pi / 2
                then (1 : ℝ) else -1))
            (pos - c), rot)⟩ ∧
    (∀ t : ℝ, (((PLANET_RADIUS + 23) / (pos - c).mag) •
        Vec2.rotate t (pos - c)).mag = PLANET_RADIUS + 23) := by
  have hu : pos - c ≠ 0 := fun h => hne ((Vec2.sub_eq_zero_iff pos c).mp h)
  have hm : (pos - c).mag ≠ 0 := Vec2.mag_ne_zero _ hu
  have hz : (⟨(c - pos).x, (c - pos).y⟩ : ℂ) ≠ 0 := by
    intro h
    rw [Complex.ext_iff] at h
    obtain ⟨hx, hy⟩ := h
    simp only [Complex.zero_re, Complex.zero_im] at hx hy
    apply hu
    refine Vec2.ext_xy ?_ ?_ <;> simp only [Vec2.sub_x, Vec2.sub_y, Vec2.zero_x,
      Vec2.zero_y] <;> simp only [Vec2.sub_x, Vec2.sub_y] at hx hy <;> linarith
  have habs : Complex.abs ⟨(c - pos).x, (c - pos).y⟩ = (pos - c).mag := by
    rw [Complex.abs_apply, Vec2.mag, Vec2.magSq]
    congr 1
    rw [Complex.normSq_mk]
    simp only [Vec2.sub_x, Vec2.sub_y]
    ring
  have hcos : Real.cos (atan2 (c - pos).y (c - pos).x)
      = (c - pos).x / (pos - c).mag := by
    rw [atan2, Complex.cos_arg hz, habs]
  have hsin : Real.sin (atan2 (c - pos).y (c - pos).x)
      = (c - pos).y / (pos - c).mag := by
    rw [atan2, Complex.sin_arg, habs]
  constructor
  · rw [move_player_walk atmospheres attractable pressed delta_seconds pos rot c
      hres hspace hdir]
    simp only [MoveResult.mk.injEq, Option.some.injEq, Prod.mk.injEq, true_and,
      and_true]
    refine Vec2.ext_xy ?_ ?_ <;>
      simp only [Vec2.smul_x, Vec2.smul_y, Vec2.rotate] <;>
      simp only [Real.cos_add, Real.sin_add, Real.cos_pi, Real.sin_pi, hcos,
        hsin] <;>
      simp only [Vec2.sub_x, Vec2.sub_y] <;>
      ring
  · intro t
    rw [Vec2.mag_smul, mag_rotate]
    rw [abs_of_pos (div_pos (by norm_num [PLANET_RADIUS]) (mag_pos _ hu))]
    field_simp

/-- C3 counterexample: planet at (750, 500), grounded player at (750, 277)
— 223 below the planet center — holding only the D key, jump not pressed,
tick 1/60 s.  The written position lies on the circle of radius 223 around
the ORIGIN; its squared distance to the attracting planet's center is
neither 183 ^ 2 nor 223 ^ 2, so the body is not placed on a circle of
radius 183 (nor any surface circle) around its planet's center, and the
claimed radius 183 is not PLANET_RADIUS + 23. -/
theorem walk_snap_counterexample :
    (match (move_player (fun _ => some ⟨750, 500⟩) (some 0)
        (fun k => match k with | KeyCode.D => true | _ => false)
        (1 / 60) true ⟨750, 277⟩ 0).setPosition with
      | some pr => pr.1.magSq = (PLANET_RADIUS + 23) ^ 2 ∧
          (pr.1 - ⟨750, 500⟩).magSq ≠ (183 : ℝ) ^ 2 ∧
          (pr.1 - ⟨750, 500⟩).magSq ≠ (PLANET_RADIUS + 23) ^ 2
      | none => False) ∧ (PLANET_RADIUS + 23 : ℝ) ≠ 183 := by
  have h1 := move_player_walk (fun _ => some ⟨750, 500⟩) (some 0)
    (fun k => match k with | KeyCode.D => true | _ => false)
    (1 / 60) ⟨750, 277⟩ 0 ⟨750, 500⟩ rfl rfl
    (by norm_num [keyDirection, directions, Vec2.magSq])
  rw [h1]
  exact ⟨snap_props _, by norm_num [PLANET_RADIUS]⟩

/-- Concrete instance of the C3 (amended) theorem, at the counterexample's
input: planet at (750, 500), grounded player at (750, 277) holding only the
D key. -/
theorem walk_snaps_to_origin_circle_witness :
    (move_player (fun _ => some ⟨750, 500⟩) (some 0)
        (fun k => match k with | KeyCode.D => true | _ => false)
        (1 / 60) true ⟨750, 277⟩ 0
      = ⟨[], some (((PLANET_RADIUS + 23) / ((⟨750, 277⟩ : Vec2) - ⟨750, 500⟩).mag) •
          Vec2.rotate
            (1 / 60 * 1.2 *
              (if Vec2.angle (keyDirection
                      (fun k => match k with | KeyCode.D => true | _ => false))
                    ((Vec2.mk (((⟨750, 500⟩ : Vec2) - ⟨750, 277⟩)).y
                        (-(((⟨750, 500⟩ : Vec2) - ⟨750, 277⟩)).x)).normalize)
                  < Real.pi / 2
                then (1 : ℝ) else -1))
            ((⟨750, 277⟩ : Vec2) - ⟨750, 500⟩), 0)⟩) ∧
    (∀ t : ℝ, (((PLANET_RADIUS + 23) / ((⟨750, 277⟩ : Vec2) - ⟨750, 500⟩).mag) •
        Vec2.rotate t ((⟨750, 277⟩ : Vec2) - ⟨750, 500⟩)).mag
      = PLANET_RADIUS + 23) :=
  walk_snaps_to_origin_circle (fun _ => some ⟨750, 500⟩) (some 0)
    (fun k => match k with | KeyCode.D => true | _ => false)
    (1 / 60) ⟨750, 277⟩ 0 ⟨750, 500⟩ rfl rfl
    (by norm_num [keyDirection, directions, Vec2.magSq])
    (by
      intro h
      have := congrArg Vec2.y h
      simp at this)

end

end Spaceism
